import Mathlib

/-!
Verification development for the Sales Analytics service
(SalesAnalytics_Task2.py).  The Python functions are shallowly embedded:
JSON-like values become the inductive type Value, Python dicts become
insertion-ordered association lists, and the in-place mutation performed by
validate_transaction is made explicit by returning the updated record.
-/

set_option maxRecDepth 4000

namespace SalesAnalytics

/-- Values carried in a transaction record, mirroring the JSON payloads the
Flask adapter hands to the core: strings, numbers (modelled as rationals,
covering Python int and float inputs), booleans and null.  Python treats a
bool as an instance of int, so booleans count as numeric below. -/
inductive Value where
  | str (s : String)
  | num (q : Rat)
  | boolean (b : Bool)
  | null
deriving DecidableEq, Repr

/-- A transaction record: an insertion-ordered string-keyed dictionary,
exactly the shape request.get_json() produces for one transaction. -/
abbrev Record := List (String × Value)

/-- Membership test for a key, modelling the Python expression
(field in data). -/
def dictContains (r : Record) (k : String) : Bool :=
  match r with
  | [] => false
  | p :: rest => if p.1 = k then true else dictContains rest k

/-- Lookup of a key, modelling data[field]; Value.null stands for the
absent case, which the embedded code only reaches when the key is known
to be present. -/
def dictGet (r : Record) (k : String) : Value :=
  match r with
  | [] => Value.null
  | p :: rest => if p.1 = k then p.2 else dictGet rest k

/-- Assignment data[field] = v on a Python dict: an existing key keeps its
position and gets the new value, a fresh key is appended at the end. -/
def dictSet (r : Record) (k : String) (v : Value) : Record :=
  match r with
  | [] => [(k, v)]
  | p :: rest => if p.1 = k then (k, v) :: rest else p :: dictSet rest k v

/-- Numeric test used by validate_transaction, modelling
isinstance(x, (int, float)); Python bools pass this test because bool is a
subclass of int. -/
def Value.isNumeric : Value → Bool
  | .num _ => true
  | .boolean _ => true
  | _ => false

/-- Numeric value of a Value, with True = 1 and False = 0 as in Python;
non-numeric values are only read through this function under an isNumeric
guard, so the 0 default is never observable. -/
def Value.toNum : Value → Rat
  | .num q => q
  | .boolean b => if b then 1 else 0
  | _ => 0

/-- The required_fields list of validate_transaction, in source order. -/
def required_fields : List String :=
  ["transaction_id", "customer_id", "customer_name",
   "product_id", "product_name", "quantity", "price"]

/-- Embedding of validate_transaction.  The Python function mutates its
argument (setting total_amount, and timestamp when absent) and returns
(is_valid, error_message); the mutation is made explicit here by returning
the updated record as the third component.  The argument now stands for
datetime.now().isoformat(). -/
def validate_transaction (data : Record) (now : String) :
    Bool × Option String × Record :=
  match required_fields.find? (fun f => ! dictContains data f) with
  | some f => (false, some ("Missing required field: " ++ f), data)
  | none =>
    if (dictGet data "quantity").isNumeric = false ∨
        (dictGet data "quantity").toNum ≤ 0 then
      (false, some "Quantity must be a positive number", data)
    else if (dictGet data "price").isNumeric = false ∨
        (dictGet data "price").toNum < 0 then
      (false, some "Price must be a non-negative number", data)
    else
      let d1 := dictSet data "total_amount"
        (Value.num ((dictGet data "quantity").toNum *
          (dictGet data "price").toNum))
      let d2 := if dictContains d1 "timestamp" then d1
        else dictSet d1 "timestamp" (Value.str now)
      (true, none, d2)

/-- Result of the upload_transactions loop: the transactions_db after the
call, the added_count, and the per-item errors
(index, transaction_id-or-Unknown, error message). -/
structure UploadResult where
  db : List Record
  added_count : Nat
  errors : List (Nat × Value × Option String)
deriving Repr

/-- The expression transaction.get(.transaction_id., .Unknown.) used when
reporting a failed item. -/
def txn_id_or_unknown (t : Record) : Value :=
  if dictContains t "transaction_id" then dictGet t "transaction_id"
  else Value.str "Unknown"

/-- One pass of the for-loop in upload_transactions: each item is validated;
valid items (as enriched by validate_transaction, which in Python mutates
the very object that is appended) go to the db, invalid ones are recorded
in errors with their index. -/
def upload_go (now : String) (idx : Nat) (txns : List Record)
    (st : UploadResult) : UploadResult :=
  match txns with
  | [] => st
  | t :: rest =>
    match validate_transaction t now with
    | (true, _, t2) =>
      upload_go now (idx + 1) rest
        { st with db := st.db ++ [t2], added_count := st.added_count + 1 }
    | (false, err, _) =>
      upload_go now (idx + 1) rest
        { st with errors := st.errors ++ [(idx, txn_id_or_unknown t, err)] }

/-- Embedding of the validation-and-append loop of upload_transactions,
acting on an explicit transactions_db passed as db. -/
def upload_transactions (txns : List Record) (now : String)
    (db : List Record) : UploadResult :=
  upload_go now 0 txns { db := db, added_count := 0, errors := [] }

/-- Normalisation of one Python slice index against a list of length n:
a negative index counts from the end (clamped below at 0), a non-negative
index is clamped above at n. -/
def pyIndex (n : Nat) (i : Int) : Nat :=
  if i < 0 then (i + n).toNat else min i.toNat n

/-- Python list slicing l[start:stop] with optional bounds, as used by
transactions_db[offset:end_idx] and the results[:limit] caps. -/
def pySlice {α : Type} (l : List α) (start stop : Option Int) : List α :=
  let s := match start with
    | none => 0
    | some i => pyIndex l.length i
  let e := match stop with
    | none => l.length
    | some i => pyIndex l.length i
  (l.take e).drop s

/-- Embedding of get_all_transactions: end_idx is offset + limit when limit
is truthy (present and nonzero) and absent otherwise, then one slice of the
db.  Flask query parameters arrive as arbitrary ints, so limit and offset
are Int. -/
def get_all_transactions (limit : Option Int) (offset : Int)
    (db : List Record) : List Record :=
  let end_idx : Option Int :=
    match limit with
    | some l => if l ≠ 0 then some (offset + l) else none
    | none => none
  pySlice db (some offset) end_idx

/-- Generic embedding of the single-pass dict-building loops of
sales_by_product and top_customers.  The accumulator is the Python dict as
an insertion-ordered association list: a record whose key is already
present updates that entry via upd, a fresh key appends a new entry
initialised by ini and then updated by upd, exactly as the source first
seeds the entry with zeros and then accumulates into it. -/
def group_fold {E : Type} (key : Record → Value) (ini : Record → E)
    (upd : E → Record → E) : List Record → List (Value × E) → List (Value × E)
  | [], acc => acc
  | t :: rest, acc =>
    if key t ∈ acc.map Prod.fst then
      group_fold key ini upd rest
        (acc.map (fun p => if p.1 = key t then (p.1, upd p.2 t) else p))
    else
      group_fold key ini upd rest (acc ++ [(key t, upd (ini t) t)])

/-- One value of the product_sales dict built by sales_by_product. -/
structure ProductEntry where
  product_id : Value
  product_name : Value
  total_sales : Rat
  total_quantity : Rat
  transaction_count : Nat
deriving DecidableEq, Repr

/-- Seed entry for a first-seen product_id in sales_by_product. -/
def product_init (t : Record) : ProductEntry :=
  { product_id := dictGet t "product_id",
    product_name := dictGet t "product_name",
    total_sales := 0, total_quantity := 0, transaction_count := 0 }

/-- Accumulation step of sales_by_product for one transaction. -/
def product_upd (e : ProductEntry) (t : Record) : ProductEntry :=
  { e with
    total_sales := e.total_sales + (dictGet t "total_amount").toNum,
    total_quantity := e.total_quantity + (dictGet t "quantity").toNum,
    transaction_count := e.transaction_count + 1 }

/-- The product_sales dict of sales_by_product after its aggregation loop. -/
def product_sales_map (db : List Record) : List (Value × ProductEntry) :=
  group_fold (fun t => dictGet t "product_id") product_init product_upd db []

/-- Embedding of sales_by_product: aggregate, sort by the selected key in
the selected order, then apply the cap when limit is truthy and positive.
Python list.sort is a stable sort, modelled by the stable insertionSort. -/
def sales_by_product (sort_by order : String) (limit : Option Int)
    (db : List Record) : List ProductEntry :=
  let results := (product_sales_map db).map Prod.snd
  let sort_key : ProductEntry → Rat :=
    if sort_by = "sales" then ProductEntry.total_sales
    else ProductEntry.total_quantity
  let sorted :=
    if order = "desc" then
      List.insertionSort (fun a b => sort_key b ≤ sort_key a) results
    else
      List.insertionSort (fun a b => sort_key a ≤ sort_key b) results
  match limit with
  | some l => if 0 < l then sorted.take l.toNat else sorted
  | none => sorted

/-- One value of the customer_stats dict built by top_customers; the last
two fields are filled in by customer_finalize, as the source adds them to
the dict only in the results pass. -/
structure CustomerEntry where
  customer_id : Value
  customer_name : Value
  total_spent : Rat
  total_transactions : Nat
  total_items : Rat
  products_purchased : List Value
  unique_products_count : Nat
  average_transaction : Rat
deriving DecidableEq, Repr

/-- Insertion into the products_purchased set; a Python set has no
duplicates, modelled as a duplicate-free list in insertion order. -/
def setAdd (l : List Value) (v : Value) : List Value :=
  if v ∈ l then l else l ++ [v]

/-- Seed entry for a first-seen customer_id in top_customers. -/
def customer_init (t : Record) : CustomerEntry :=
  { customer_id := dictGet t "customer_id",
    customer_name := dictGet t "customer_name",
    total_spent := 0, total_transactions := 0, total_items := 0,
    products_purchased := [], unique_products_count := 0,
    average_transaction := 0 }

/-- Accumulation step of top_customers for one transaction. -/
def customer_upd (e : CustomerEntry) (t : Record) : CustomerEntry :=
  { e with
    total_spent := e.total_spent + (dictGet t "total_amount").toNum,
    total_transactions := e.total_transactions + 1,
    total_items := e.total_items + (dictGet t "quantity").toNum,
    products_purchased :=
      setAdd e.products_purchased (dictGet t "product_name") }

/-- The customer_stats dict of top_customers after its aggregation loop. -/
def customer_stats_map (db : List Record) : List (Value × CustomerEntry) :=
  group_fold (fun t => dictGet t "customer_id") customer_init customer_upd db []

/-- Derived fields added to a surviving entry in the results pass of
top_customers. -/
def customer_finalize (e : CustomerEntry) : CustomerEntry :=
  { e with
    unique_products_count := e.products_purchased.length,
    average_transaction := e.total_spent / (e.total_transactions : Rat) }

/-- Embedding of top_customers: aggregate, keep entries with
total_spent at or above the min_spent threshold, add derived fields, sort
descending by total_spent (stable, as Python sort is), and apply the
results[:limit] slice. -/
def top_customers (limit : Int) (min_spent : Rat) (db : List Record) :
    List CustomerEntry :=
  let results :=
    (((customer_stats_map db).map Prod.snd).filter
      (fun s => decide (min_spent ≤ s.total_spent))).map customer_finalize
  let sorted :=
    List.insertionSort (fun a b => b.total_spent ≤ a.total_spent) results
  pySlice sorted none (some limit)

/-- Splitting a character list at every occurrence of a separator, the
List-of-Char counterpart of String.splitOn used to write an executable
date parser. -/
def splitOnChar (c : Char) : List Char → List (List Char)
  | [] => [[]]
  | x :: rest =>
    if x = c then [] :: splitOnChar c rest
    else
      match splitOnChar c rest with
      | [] => [[x]]
      | h :: t => (x :: h) :: t

/-- Decimal value of a digit character, none for a non-digit. -/
def digitVal (c : Char) : Option Nat :=
  if 48 ≤ c.toNat ∧ c.toNat ≤ 57 then some (c.toNat - 48) else none

/-- Reading a non-empty all-digit character list as a Nat. -/
def digitsToNat (acc : Nat) : List Char → Option Nat
  | [] => some acc
  | c :: rest =>
    match digitVal c with
    | some d => digitsToNat (acc * 10 + d) rest
    | none => none

/-- Fixed-width digit field of a date or time string. -/
def fixedNat (width : Nat) (l : List Char) : Option Nat :=
  if l.length = width then digitsToNat 0 l else none

/-- Number of days of a month, with the Gregorian leap-year rule, as
datetime uses to validate the day field. -/
def days_in_month (y m : Nat) : Nat :=
  if m = 2 then
    if (y % 4 = 0 ∧ ¬ y % 100 = 0) ∨ y % 400 = 0 then 29 else 28
  else if m = 4 ∨ m = 6 ∨ m = 9 ∨ m = 11 then 30
  else 31

/-- Parsing the YYYY-MM-DD part of an ISO-8601 string, with the month in
1..12 and the day calendar-validated against the month as datetime does,
to a Nat that is strictly monotone in the calendar order. -/
def parse_date_part (l : List Char) : Option Nat :=
  match splitOnChar '-' l with
  | [y, m, d] =>
    match fixedNat 4 y, fixedNat 2 m, fixedNat 2 d with
    | some yn, some mn, some dn =>
      if 1 ≤ mn ∧ mn ≤ 12 ∧ 1 ≤ dn ∧ dn ≤ days_in_month yn mn then
        some ((yn * 13 + mn) * 32 + dn)
      else none
    | _, _, _ => none
  | _ => none

/-- Microsecond value of a fractional-seconds field (the digits after the
dot or comma): at least one digit, read at microsecond precision with
further digits truncated as Python does. -/
def parse_frac (l : List Char) : Option Nat :=
  if l = [] then none
  else
    match digitsToNat 0 l with
    | some _ =>
      (digitsToNat 0 (l.take 6)).map (fun v => v * 10 ^ (6 - (l.take 6).length))
    | none => none

/-- Parsing the seconds field SS with an optional .ffffff or ,ffffff
fractional part, to a pair of seconds and microseconds. -/
def parse_seconds (l : List Char) : Option (Nat × Nat) :=
  match fixedNat 2 (l.take 2) with
  | some sn =>
    if sn ≤ 59 then
      match l.drop 2 with
      | [] => some (sn, 0)
      | c :: rest =>
        if c = '.' ∨ c = ',' then (parse_frac rest).map (fun u => (sn, u))
        else none
    else none
  | none => none

/-- Parsing the time part HH, HH:MM or HH:MM:SS[.ffffff] of an ISO-8601
string to a count of microseconds within the day. -/
def parse_time_part (l : List Char) : Option Nat :=
  match splitOnChar ':' l with
  | [h] =>
    match fixedNat 2 h with
    | some hn => if hn ≤ 23 then some (hn * 3600000000) else none
    | none => none
  | [h, m] =>
    match fixedNat 2 h, fixedNat 2 m with
    | some hn, some mn =>
      if hn ≤ 23 ∧ mn ≤ 59 then some ((hn * 60 + mn) * 60000000) else none
    | _, _ => none
  | [h, m, sf] =>
    match fixedNat 2 h, fixedNat 2 m, parse_seconds sf with
    | some hn, some mn, some su =>
      if hn ≤ 23 ∧ mn ≤ 59 then
        some (((hn * 60 + mn) * 60 + su.1) * 1000000 + su.2)
      else none
    | _, _, _ => none
  | _ => none

/-- Model of the version-stable core of Python datetime.fromisoformat: a
calendar-validated extended-format date YYYY-MM-DD, optionally followed by
one separator character of any kind and a time HH, HH:MM or
HH:MM:SS[.ffffff]; a parsed string maps to a microsecond count preserving
chronological order, an unparseable one to none (the ValueError path).
The exact acceptance set of datetime.fromisoformat differs across Python
versions (3.11 added basic formats, week dates and offsets), so every
claim about date handling below is proved parametrically in the parse
function and this model serves only as the concrete default instantiation
of the pipeline. -/
def fromisoformat (s : String) : Option Nat :=
  let cs := s.toList
  if cs.length = 10 then
    (parse_date_part cs).map (fun n => n * 86400000000)
  else if 11 < cs.length then
    match parse_date_part (cs.take 10), parse_time_part (cs.drop 11) with
    | some dn, some tn => some (dn * 86400000000 + tn)
    | _, _ => none
  else none

/-- Query parameters of filter_transactions as they leave request.args:
missing parameters are none, and min_amount, max_amount, limit are none
as well when Flask fails to coerce them to float or int. -/
structure FilterParams where
  customer_id : Option String
  product_id : Option String
  min_amount : Option Rat
  max_amount : Option Rat
  start_date : Option String
  end_date : Option String
  limit : Option Int
  offset : Int
deriving Repr

/-- Python truthiness of an optional string parameter: a missing parameter
and an empty string are both falsy, so both disable the corresponding
filter in the source. -/
def truthy_str : Option String → Option String
  | some s => if s = "" then none else some s
  | none => none

/-- Parsing one of the date bounds before the filtering loop,
parametrically in the parse function iso standing for the acceptance
boundary of datetime.fromisoformat; an active but unparseable bound is the
ValueError that the route maps to the 400 Invalid-date-format response,
modelled as an Except error. -/
def parse_bound_iso (iso : String → Option Nat) (s : Option String) :
    Except String (Option Nat) :=
  match truthy_str s with
  | none => Except.ok none
  | some d =>
    match iso d with
    | some n => Except.ok (some n)
    | none => Except.error "Invalid date format"

/-- Bound parsing instantiated at the model parser. -/
def parse_bound (s : Option String) : Except String (Option Nat) :=
  parse_bound_iso fromisoformat s

/-- The four non-date checks of the filtering loop, in source order:
customer_id equality, product_id equality, minimum and maximum
total_amount. -/
def amount_filters_pass (p : FilterParams) (t : Record) : Bool :=
  (match truthy_str p.customer_id with
   | some c => decide (dictGet t "customer_id" = Value.str c)
   | none => true) &&
  (match truthy_str p.product_id with
   | some c => decide (dictGet t "product_id" = Value.str c)
   | none => true) &&
  (match p.min_amount with
   | some m => decide (m ≤ (dictGet t "total_amount").toNum)
   | none => true) &&
  (match p.max_amount with
   | some m => decide ((dictGet t "total_amount").toNum ≤ m)
   | none => true)

/-- The two date checks of the filtering loop for one record: when a bound
is active the record's timestamp is parsed with the same parse function;
a non-string timestamp is the TypeError path (500 Server error) and an
unparseable one the ValueError path (400 Invalid date format). -/
def check_dates_iso (iso : String → Option Nat)
    (start_dt end_dt : Option Nat) (ts : Value) : Except String Bool :=
  match start_dt, end_dt with
  | none, none => Except.ok true
  | _, _ =>
    match ts with
    | Value.str s =>
      match iso s with
      | some n =>
        Except.ok ((match start_dt with
          | some sd => decide (sd ≤ n)
          | none => true) &&
         (match end_dt with
          | some ed => decide (n ≤ ed)
          | none => true))
      | none => Except.error "Invalid date format"
    | _ => Except.error "Server error"

/-- The filtering loop of apply_filters over the transaction list, keeping
insertion order. -/
def apply_filters_go_iso (iso : String → Option Nat) (p : FilterParams)
    (start_dt end_dt : Option Nat) :
    List Record → Except String (List Record)
  | [] => Except.ok []
  | t :: rest =>
    if amount_filters_pass p t then
      match check_dates_iso iso start_dt end_dt (dictGet t "timestamp") with
      | Except.error e => Except.error e
      | Except.ok keep =>
        match apply_filters_go_iso iso p start_dt end_dt rest with
        | Except.error e => Except.error e
        | Except.ok tail =>
          Except.ok (if keep then t :: tail else tail)
    else apply_filters_go_iso iso p start_dt end_dt rest

/-- Embedding of apply_filters, parametric in the parse function: both date
bounds are parsed once, before any record is examined, then the conjunction
of active predicates is evaluated over the snapshot. -/
def apply_filters_iso (iso : String → Option Nat) (p : FilterParams)
    (db : List Record) : Except String (List Record) :=
  match parse_bound_iso iso p.start_date with
  | Except.error e => Except.error e
  | Except.ok start_dt =>
    match parse_bound_iso iso p.end_date with
    | Except.error e => Except.error e
    | Except.ok end_dt => apply_filters_go_iso iso p start_dt end_dt db

/-- The filtering pass instantiated at the model parser. -/
def apply_filters (p : FilterParams) (db : List Record) :
    Except String (List Record) :=
  apply_filters_iso fromisoformat p db

/-- Successful response body of filter_transactions. -/
structure FilterResult where
  count : Nat
  total_count : Nat
  total_amount : Rat
  offset : Int
  data : List Record
deriving DecidableEq, Repr

/-- Embedding of filter_transactions, parametric in the parse function:
materialise the filtered list, compute total_count and total_amount over
it, then paginate following the source exactly: a truthy limit slices
[offset : offset + limit], otherwise a truthy offset slices [offset :],
otherwise the list is untouched. -/
def filter_transactions_iso (iso : String → Option Nat) (p : FilterParams)
    (db : List Record) : Except String FilterResult :=
  match apply_filters_iso iso p db with
  | Except.error e => Except.error e
  | Except.ok filtered =>
    let total_count := filtered.length
    let total_amount :=
      (filtered.map (fun t => (dictGet t "total_amount").toNum)).sum
    let paged :=
      match p.limit with
      | some l =>
        if l ≠ 0 then pySlice filtered (some p.offset) (some (p.offset + l))
        else if p.offset ≠ 0 then pySlice filtered (some p.offset) none
        else filtered
      | none =>
        if p.offset ≠ 0 then pySlice filtered (some p.offset) none
        else filtered
    Except.ok { count := paged.length, total_count := total_count,
                total_amount := total_amount, offset := p.offset,
                data := paged }

/-- The filter endpoint instantiated at the model parser. -/
def filter_transactions (p : FilterParams) (db : List Record) :
    Except String FilterResult :=
  filter_transactions_iso fromisoformat p db

/-- The enriched record produced by a successful validation: total_amount
is recomputed and timestamp defaulted when absent. -/
def enriched (data : Record) (now : String) : Record :=
  if dictContains
      (dictSet data "total_amount"
        (Value.num ((dictGet data "quantity").toNum *
          (dictGet data "price").toNum))) "timestamp" then
    dictSet data "total_amount"
      (Value.num ((dictGet data "quantity").toNum *
        (dictGet data "price").toNum))
  else
    dictSet
      (dictSet data "total_amount"
        (Value.num ((dictGet data "quantity").toNum *
          (dictGet data "price").toNum)))
      "timestamp" (Value.str now)

/-- A record whose total_amount field equals the product of its quantity
and price fields. -/
def total_amount_consistent (r : Record) : Prop :=
  dictGet r "total_amount" =
    Value.num ((dictGet r "quantity").toNum * (dictGet r "price").toNum)

/-- Validity of the quantity field as the claim states it: present, numeric
and strictly positive. -/
def quantity_valid (data : Record) : Prop :=
  (dictGet data "quantity").isNumeric = true ∧
  0 < (dictGet data "quantity").toNum

/-- Validity of the price field as the claim states it: present, numeric
and non-negative. -/
def price_valid (data : Record) : Prop :=
  (dictGet data "price").isNumeric = true ∧
  0 ≤ (dictGet data "price").toNum

instance (data : Record) : Decidable (quantity_valid data) := by
  unfold quantity_valid
  exact inferInstance

instance (data : Record) : Decidable (price_valid data) := by
  unfold price_valid
  exact inferInstance

/-- First-occurrence key insertion, describing how the dict of a grouping
loop grows. -/
def insKey (ks : List Value) (k : Value) : List Value :=
  if k ∈ ks then ks else ks ++ [k]

/-! Concrete records and parameters used by the closed instance theorems
below. -/

/-- A fully valid record carrying its own timestamp and no total_amount. -/
def wrec : Record :=
  [("transaction_id", Value.str "T1"), ("customer_id", Value.str "C1"),
   ("customer_name", Value.str "A"), ("product_id", Value.str "P1"),
   ("product_name", Value.str "L"), ("quantity", Value.num 2),
   ("price", Value.num 3), ("timestamp", Value.str "2026-02-05T10:30:00")]

/-- A record with the price field absent. -/
def wrec_noprice : Record :=
  [("transaction_id", Value.str "T2"), ("customer_id", Value.str "C1"),
   ("customer_name", Value.str "A"), ("product_id", Value.str "P1"),
   ("product_name", Value.str "L"), ("quantity", Value.num 2)]

/-- A record with a non-positive quantity. -/
def wrec_badqty : Record :=
  [("transaction_id", Value.str "T3"), ("customer_id", Value.str "C1"),
   ("customer_name", Value.str "A"), ("product_id", Value.str "P1"),
   ("product_name", Value.str "L"), ("quantity", Value.num 0),
   ("price", Value.num 3)]

/-- A record with a negative price. -/
def wrec_badprice : Record :=
  [("transaction_id", Value.str "T4"), ("customer_id", Value.str "C1"),
   ("customer_name", Value.str "A"), ("product_id", Value.str "P1"),
   ("product_name", Value.str "L"), ("quantity", Value.num 2),
   ("price", Value.num (-1))]

/-- Minimal distinct records for the pagination instances. -/
def wra : Record := [("transaction_id", Value.str "A")]

def wrb : Record := [("transaction_id", Value.str "B")]

def wrc : Record := [("transaction_id", Value.str "C")]

/-- Filter parameters carrying an unparseable start_date. -/
def w7p : FilterParams :=
  { customer_id := none, product_id := none, min_amount := none,
    max_amount := none, start_date := some "2026-13-01", end_date := none,
    limit := none, offset := 0 }

/-- Records with total_amount 1 and 2 for the filter instances. -/
def fra : Record := [("total_amount", Value.num 1)]

def frb : Record := [("total_amount", Value.num 2)]

/-- Filter parameters with limit 1 and offset 1 and no filters. -/
def f4p : FilterParams :=
  { customer_id := none, product_id := none, min_amount := none,
    max_amount := none, start_date := none, end_date := none,
    limit := some 1, offset := 1 }

/-- The response filter_transactions produces for f4p over fra, frb. -/
def f4res : FilterResult :=
  { count := 1, total_count := 2, total_amount := 3,
    offset := 1, data := [frb] }

/-- Filter parameters with the falsy limit 0 and offset 1. -/
def f0p : FilterParams :=
  { customer_id := none, product_id := none, min_amount := none,
    max_amount := none, start_date := none, end_date := none,
    limit := some 0, offset := 1 }

/-- A validated-shaped record for one customer with one purchase. -/
def cexc (name : String) (amt : Rat) : Record :=
  [("customer_id", Value.str name), ("customer_name", Value.str "N"),
   ("product_name", Value.str "P"), ("quantity", Value.num 1),
   ("total_amount", Value.num amt)]

/-- Eleven one-purchase customers with distinct ids and spends 1..11. -/
def cexdb : List Record :=
  [cexc "C01" 1, cexc "C02" 2, cexc "C03" 3, cexc "C04" 4, cexc "C05" 5,
   cexc "C06" 6, cexc "C07" 7, cexc "C08" 8, cexc "C09" 9, cexc "C10" 10,
   cexc "C11" 11]


/-! Dictionary lemmas. -/

theorem dictGet_dictSet_self (r : Record) (k : String) (v : Value) :
    dictGet (dictSet r k v) k = v := by
  induction r with
  | nil => simp [dictSet, dictGet]
  | cons p rest ih =>
    by_cases h : p.1 = k
    · simp [dictSet, h, dictGet]
    · simp [dictSet, h, dictGet, ih]

theorem dictGet_dictSet_ne (r : Record) (k k2 : String) (v : Value)
    (h : k2 ≠ k) : dictGet (dictSet r k v) k2 = dictGet r k2 := by
  induction r with
  | nil => simp [dictSet, dictGet, Ne.symm h]
  | cons p rest ih =>
    by_cases hp : p.1 = k
    · subst hp
      simp [dictSet, dictGet, Ne.symm h]
    · simp [dictSet, hp, dictGet, ih]

/-! Shape of the validator result. -/

theorem validate_cases (data : Record) (now : String) :
    ((validate_transaction data now).1 = false ∧
      (validate_transaction data now).2.2 = data) ∨
    ((validate_transaction data now).1 = true ∧
      (validate_transaction data now).2.2 = enriched data now) := by
  unfold validate_transaction
  split
  · exact Or.inl ⟨rfl, rfl⟩
  · split
    · exact Or.inl ⟨rfl, rfl⟩
    · split
      · exact Or.inl ⟨rfl, rfl⟩
      · exact Or.inr ⟨rfl, rfl⟩

theorem enriched_get_other (data : Record) (now : String) (f : String)
    (h1 : f ≠ "total_amount") (h2 : f ≠ "timestamp") :
    dictGet (enriched data now) f = dictGet data f := by
  unfold enriched
  split
  · exact dictGet_dictSet_ne data "total_amount" f _ h1
  · rw [dictGet_dictSet_ne _ "timestamp" f _ h2,
      dictGet_dictSet_ne data "total_amount" f _ h1]

theorem enriched_total_amount (data : Record) (now : String) :
    total_amount_consistent (enriched data now) := by
  have hq : dictGet (enriched data now) "quantity" = dictGet data "quantity" :=
    enriched_get_other data now "quantity" (by decide) (by decide)
  have hp : dictGet (enriched data now) "price" = dictGet data "price" :=
    enriched_get_other data now "price" (by decide) (by decide)
  have ht : dictGet (enriched data now) "total_amount" =
      Value.num ((dictGet data "quantity").toNum *
        (dictGet data "price").toNum) := by
    unfold enriched
    split
    · exact dictGet_dictSet_self data "total_amount" _
    · rw [dictGet_dictSet_ne _ "timestamp" "total_amount" _ (by decide)]
      exact dictGet_dictSet_self data "total_amount" _
  unfold total_amount_consistent
  rw [ht, hq, hp]

theorem validate_success_total (data : Record) (now : String)
    (h : (validate_transaction data now).1 = true) :
    total_amount_consistent (validate_transaction data now).2.2 := by
  rcases validate_cases data now with ⟨hf, _⟩ | ⟨_, he⟩
  · rw [h] at hf; cases hf
  · rw [he]; exact enriched_total_amount data now

theorem upload_go_invariant (now : String) :
    ∀ (txns : List Record) (idx : Nat) (st : UploadResult),
    (∀ r ∈ st.db, total_amount_consistent r) →
    ∀ r ∈ (upload_go now idx txns st).db, total_amount_consistent r := by
  intro txns
  induction txns with
  | nil => intro idx st h r hr; exact h r hr
  | cons t rest ih =>
    intro idx st h r hr
    unfold upload_go at hr
    revert hr
    split
    · rename_i heq
      intro hr
      refine ih (idx + 1) _ ?_ r hr
      intro r2 hr2
      rcases List.mem_append.1 hr2 with h2 | h2
      · exact h r2 h2
      · rcases List.mem_singleton.1 h2 with rfl
        have h1 : (validate_transaction t now).1 = true := by rw [heq]
        have h3 := validate_success_total t now h1
        rwa [heq] at h3
    · intro hr
      refine ih (idx + 1) _ ?_ r hr
      intro r2 hr2
      exact h r2 hr2

/-! Validator claims. -/

/-- C1: a record accepted by validate_transaction carries
total_amount = quantity * price in its stored (enriched) form, whatever
total_amount the caller supplied, and consequently upload_transactions
preserves the Store invariant that every stored record satisfies
total_amount = quantity * price as of its insertion. -/
theorem claim_C1 :
    (∀ (data : Record) (now : String),
      (validate_transaction data now).1 = true →
      total_amount_consistent (validate_transaction data now).2.2) ∧
    (∀ (txns : List Record) (now : String) (db : List Record),
      (∀ r ∈ db, total_amount_consistent r) →
      ∀ r ∈ (upload_transactions txns now db).db,
        total_amount_consistent r) :=
  ⟨validate_success_total,
   fun txns now db h => upload_go_invariant now txns 0 _ h⟩

/-- C6 (amended): validate_transaction touches no state other than its
argument record, and of the argument it can change only the total_amount
and timestamp fields; every other field reads back unchanged after the
call, on success as well as on failure. -/
theorem claim_C6 (data : Record) (now : String) :
    ∀ f, f ≠ "total_amount" → f ≠ "timestamp" →
      dictGet (validate_transaction data now).2.2 f = dictGet data f := by
  intro f h1 h2
  rcases validate_cases data now with ⟨_, he⟩ | ⟨_, he⟩
  · rw [he]
  · rw [he]; exact enriched_get_other data now f h1 h2

/-- C10: when validate_transaction rejects a record, the record is returned
exactly as supplied: no total_amount is computed onto it and no timestamp
is defaulted. -/
theorem claim_C10 (data : Record) (now : String)
    (h : (validate_transaction data now).1 = false) :
    (validate_transaction data now).2.2 = data := by
  rcases validate_cases data now with ⟨_, he⟩ | ⟨ht, _⟩
  · exact he
  · rw [ht] at h; cases h

/-- C8: the validator checks the seven required fields in their fixed
order and reports the first missing one; with all fields present it
reports InvalidQuantity exactly when the quantity is not numeric or not
positive; with a valid quantity it reports InvalidPrice exactly when the
price is not numeric or negative; each failure short-circuits, leaving
the record unchanged. -/
theorem claim_C8 (data : Record) (now : String) :
    (required_fields.find? (fun f => ! dictContains data f) = none ↔
      ∀ f ∈ required_fields, dictContains data f = true) ∧
    (∀ f, required_fields.find? (fun g => ! dictContains data g) = some f →
      validate_transaction data now =
        (false, some ("Missing required field: " ++ f), data)) ∧
    (required_fields.find? (fun f => ! dictContains data f) = none →
      ¬ quantity_valid data →
      validate_transaction data now =
        (false, some "Quantity must be a positive number", data)) ∧
    (required_fields.find? (fun f => ! dictContains data f) = none →
      quantity_valid data → ¬ price_valid data →
      validate_transaction data now =
        (false, some "Price must be a non-negative number", data)) := by
  refine ⟨?_, ?_, ?_, ?_⟩
  · simp [List.find?_eq_none]
  · intro f h
    unfold validate_transaction
    rw [h]
  · intro h hq
    have hc : (dictGet data "quantity").isNumeric = false ∨
        (dictGet data "quantity").toNum ≤ 0 := by
      by_cases hb : (dictGet data "quantity").isNumeric = true
      · right
        by_contra hlt
        exact hq ⟨hb, lt_of_not_le hlt⟩
      · left
        cases hb2 : (dictGet data "quantity").isNumeric
        · rfl
        · exact absurd hb2 hb
    unfold validate_transaction
    rw [h]
    simp only []
    rw [if_pos hc]
  · intro h hq hp
    have hcq : ¬ ((dictGet data "quantity").isNumeric = false ∨
        (dictGet data "quantity").toNum ≤ 0) := by
      rintro (h1 | h1)
      · rw [hq.1] at h1; cases h1
      · exact absurd hq.2 (not_lt.mpr h1)
    have hcp : (dictGet data "price").isNumeric = false ∨
        (dictGet data "price").toNum < 0 := by
      by_cases hb : (dictGet data "price").isNumeric = true
      · right
        by_contra hlt
        exact hp ⟨hb, le_of_not_lt hlt⟩
      · left
        cases hb2 : (dictGet data "price").isNumeric
        · rfl
        · exact absurd hb2 hb
    unfold validate_transaction
    rw [h]
    simp only []
    rw [if_neg hcq, if_pos hcp]

/-! Association-list aggregation lemmas for the two dict-building loops. -/

theorem keys_map_update {E : Type} (acc : List (Value × E)) (k : Value)
    (u : E → E) :
    ((acc.map (fun p => if p.1 = k then (p.1, u p.2) else p)).map Prod.fst)
      = acc.map Prod.fst := by
  induction acc with
  | nil => rfl
  | cons p rest ih =>
    by_cases h : p.1 = k <;> simp [h, ih]

theorem map_update_of_not_mem {E : Type} (acc : List (Value × E)) (k : Value)
    (u : E → E) (h : k ∉ acc.map Prod.fst) :
    acc.map (fun p => if p.1 = k then (p.1, u p.2) else p) = acc := by
  induction acc with
  | nil => rfl
  | cons p rest ih =>
    simp only [List.map_cons, List.mem_cons, not_or] at h
    have hp : p.1 ≠ k := fun e => h.1 e.symm
    simp [hp, ih h.2]

theorem group_fold_keys {E : Type} (key : Record → Value) (ini : Record → E)
    (upd : E → Record → E) :
    ∀ (l : List Record) (acc : List (Value × E)),
    (group_fold key ini upd l acc).map Prod.fst
      = l.foldl (fun ks t => insKey ks (key t)) (acc.map Prod.fst) := by
  intro l
  induction l with
  | nil => intro acc; rfl
  | cons t rest ih =>
    intro acc
    simp only [group_fold, List.foldl_cons]
    by_cases hmem : key t ∈ acc.map Prod.fst
    · rw [if_pos hmem, ih,
        keys_map_update acc (key t) (fun e => upd e t)]
      congr 1
      simp [insKey, hmem]
    · rw [if_neg hmem, ih]
      congr 1
      simp [insKey, hmem]

theorem foldl_insKey_nodup (key : Record → Value) :
    ∀ (l : List Record) (ks : List Value), ks.Nodup →
    (l.foldl (fun a t => insKey a (key t)) ks).Nodup := by
  intro l
  induction l with
  | nil => intro ks h; exact h
  | cons t rest ih =>
    intro ks h
    simp only [List.foldl_cons]
    refine ih _ ?_
    unfold insKey
    split
    · exact h
    · simp [List.nodup_append, h]
      assumption

theorem foldl_insKey_mem (key : Record → Value) :
    ∀ (l : List Record) (ks : List Value) (x : Value),
    x ∈ l.foldl (fun a t => insKey a (key t)) ks ↔
      x ∈ ks ∨ x ∈ l.map key := by
  intro l
  induction l with
  | nil => intro ks x; simp
  | cons t rest ih =>
    intro ks x
    simp only [List.foldl_cons, List.map_cons, List.mem_cons]
    rw [ih]
    unfold insKey
    split
    · rename_i hmem
      constructor
      · rintro (h | h)
        · exact Or.inl h
        · exact Or.inr (Or.inr h)
      · rintro (h | h | h)
        · exact Or.inl h
        · exact Or.inl (h ▸ hmem)
        · exact Or.inr h
    · simp only [List.mem_append, List.mem_singleton]
      constructor
      · rintro ((h | h) | h)
        · exact Or.inl h
        · exact Or.inr (Or.inl h)
        · exact Or.inr (Or.inr h)
      · rintro (h | h | h)
        · exact Or.inl (Or.inl h)
        · exact Or.inl (Or.inr h)
        · exact Or.inr h

theorem group_fold_invariant {E : Type} (key : Record → Value)
    (ini : Record → E) (upd : E → Record → E) (Q : Value × E → Prop) :
    ∀ (l : List Record) (acc : List (Value × E)),
    (∀ p ∈ acc, Q p) →
    (∀ k e t, t ∈ l → Q (k, e) → Q (k, upd e t)) →
    (∀ t ∈ l, Q (key t, upd (ini t) t)) →
    ∀ p ∈ group_fold key ini upd l acc, Q p := by
  intro l
  induction l with
  | nil =>
    intro acc hacc _ _ p hp
    exact hacc p hp
  | cons t rest ih =>
    intro acc hacc hupd hini p hp
    simp only [group_fold] at hp
    by_cases hmem : key t ∈ acc.map Prod.fst
    · rw [if_pos hmem] at hp
      refine ih _ ?_
        (fun k e t2 ht2 => hupd k e t2 (List.mem_cons_of_mem _ ht2))
        (fun t2 ht2 => hini t2 (List.mem_cons_of_mem _ ht2)) p hp
      intro p2 hp2
      rcases List.mem_map.1 hp2 with ⟨p0, hp0, rfl⟩
      by_cases h0 : p0.1 = key t
      · rw [if_pos h0]
        exact hupd p0.1 p0.2 t (List.mem_cons_self _ _) (hacc p0 hp0)
      · rw [if_neg h0]
        exact hacc p0 hp0
    · rw [if_neg hmem] at hp
      refine ih _ ?_
        (fun k e t2 ht2 => hupd k e t2 (List.mem_cons_of_mem _ ht2))
        (fun t2 ht2 => hini t2 (List.mem_cons_of_mem _ ht2)) p hp
      intro p2 hp2
      rcases List.mem_append.1 hp2 with h2 | h2
      · exact hacc p2 h2
      · rcases List.mem_singleton.1 h2 with rfl
        exact hini t (List.mem_cons_self _ _)

theorem sum_map_update {E : Type} (f : E → Rat) (u : E → E) (d : Rat)
    (hu : ∀ e, f (u e) = f e + d) :
    ∀ (acc : List (Value × E)) (k : Value), k ∈ acc.map Prod.fst →
    (acc.map Prod.fst).Nodup →
    ((acc.map (fun p => if p.1 = k then (p.1, u p.2) else p)).map
        (fun p => f p.2)).sum
      = (acc.map (fun p => f p.2)).sum + d := by
  intro acc
  induction acc with
  | nil => intro k hk; simp at hk
  | cons p rest ih =>
    intro k hk hnd
    simp only [List.map_cons, List.nodup_cons] at hnd
    by_cases hp : p.1 = k
    · have hkr : k ∉ rest.map Prod.fst := hp ▸ hnd.1
      simp only [List.map_cons, if_pos hp,
        map_update_of_not_mem rest k (fun e => u e) hkr, List.sum_cons]
      rw [hu]
      ring
    · have hk2 : k ∈ rest.map Prod.fst := by
        simp only [List.map_cons, List.mem_cons] at hk
        rcases hk with h | h
        · exact absurd h.symm hp
        · exact h
      simp only [List.map_cons, if_neg hp, List.sum_cons, ih k hk2 hnd.2]
      ring

theorem group_fold_sum {E : Type} (key : Record → Value) (ini : Record → E)
    (upd : E → Record → E) (f : E → Rat) (g : Record → Rat)
    (hini : ∀ t, f (upd (ini t) t) = g t)
    (hupd : ∀ e t, f (upd e t) = f e + g t) :
    ∀ (l : List Record) (acc : List (Value × E)),
    (acc.map Prod.fst).Nodup →
    ((group_fold key ini upd l acc).map (fun p => f p.2)).sum
      = (acc.map (fun p => f p.2)).sum + (l.map g).sum := by
  intro l
  induction l with
  | nil => intro acc _; simp [group_fold]
  | cons t rest ih =>
    intro acc hnd
    simp only [group_fold, List.map_cons, List.sum_cons]
    by_cases hmem : key t ∈ acc.map Prod.fst
    · rw [if_pos hmem]
      have hnd2 : ((acc.map (fun p =>
          if p.1 = key t then (p.1, upd p.2 t) else p)).map Prod.fst).Nodup := by
        rw [keys_map_update acc (key t) (fun e => upd e t)]
        exact hnd
      rw [ih _ hnd2,
        sum_map_update f (fun e => upd e t) (g t) (fun e => hupd e t)
          acc (key t) hmem hnd]
      ring
    · rw [if_neg hmem]
      have hnd2 : (((acc ++ [(key t, upd (ini t) t)]).map Prod.fst)).Nodup := by
        simp [List.nodup_append, hnd, hmem]
      rw [ih _ hnd2]
      simp only [List.map_append, List.sum_append, List.map_cons,
        List.sum_cons, List.map_nil, List.sum_nil, hini]
      ring

/-- C5: the by-product aggregation is a partition of the snapshot, so the
group totals returned by sales_by_product (with the optional cap at its
absent default) sum to the corresponding per-record sums over the whole
snapshot, for every choice of sort key and order. -/
theorem claim_C5 (db : List Record) (sort_by order : String) :
    ((sales_by_product sort_by order none db).map
        ProductEntry.total_quantity).sum
      = (db.map (fun t => (dictGet t "quantity").toNum)).sum ∧
    ((sales_by_product sort_by order none db).map
        ProductEntry.total_sales).sum
      = (db.map (fun t => (dictGet t "total_amount").toNum)).sum := by
  have hperm : List.Perm (sales_by_product sort_by order none db)
      ((product_sales_map db).map Prod.snd) := by
    simp only [sales_by_product]
    split
    · exact List.perm_insertionSort _ _
    · exact List.perm_insertionSort _ _
  constructor
  · rw [(hperm.map ProductEntry.total_quantity).sum_eq, List.map_map]
    have h := group_fold_sum (fun t => dictGet t "product_id") product_init
      product_upd ProductEntry.total_quantity
      (fun t => (dictGet t "quantity").toNum)
      (fun t => by simp [product_init, product_upd])
      (fun e t => rfl) db [] (by simp)
    simpa [product_sales_map, Function.comp] using h
  · rw [(hperm.map ProductEntry.total_sales).sum_eq, List.map_map]
    have h := group_fold_sum (fun t => dictGet t "product_id") product_init
      product_upd ProductEntry.total_sales
      (fun t => (dictGet t "total_amount").toNum)
      (fun t => by simp [product_init, product_upd])
      (fun e t => rfl) db [] (by simp)
    simpa [product_sales_map, Function.comp] using h

theorem pySlice_none_ge {α : Type} (l : List α) (j : Int)
    (h : (l.length : Int) ≤ j) : pySlice l none (some j) = l := by
  have hj : ¬ j < 0 := by omega
  have hlen : l.length ≤ j.toNat := by omega
  simp [pySlice, pyIndex, hj, min_eq_right hlen]

/-- C2 (amended): over a store of validated records (every total_amount
non-negative) whose number of distinct customers is at most the limit,
top_customers with min_spent 0 returns exactly one aggregate entry per
distinct customer_id present: no duplicates and no omissions.  Without the
bound on the limit the results[:limit] cap can drop customers. -/
theorem claim_C2 (db : List Record) (limit : Int)
    (hamt : ∀ r ∈ db, 0 ≤ (dictGet r "total_amount").toNum)
    (hlim : (((db.map (fun t => dictGet t "customer_id")).toFinset.card : Int))
      ≤ limit) :
    ((top_customers limit 0 db).map CustomerEntry.customer_id).Nodup ∧
    ∀ v, v ∈ (top_customers limit 0 db).map CustomerEntry.customer_id ↔
      v ∈ db.map (fun t => dictGet t "customer_id") := by
  have hkeys := group_fold_keys (fun t => dictGet t "customer_id")
      customer_init customer_upd db []
  have hnodupkeys : ((customer_stats_map db).map Prod.fst).Nodup := by
    rw [customer_stats_map, hkeys]
    exact foldl_insKey_nodup _ db [] List.nodup_nil
  have hmemkeys : ∀ v, v ∈ (customer_stats_map db).map Prod.fst ↔
      v ∈ db.map (fun t => dictGet t "customer_id") := by
    intro v
    rw [customer_stats_map, hkeys, foldl_insKey_mem]
    simp
  have hid : ∀ p ∈ customer_stats_map db, p.2.customer_id = p.1 := by
    refine group_fold_invariant _ _ _ _ db [] ?_ ?_ ?_
    · intro p hp; cases hp
    · intro k e t _ h; simpa [customer_upd] using h
    · intro t _; simp [customer_init, customer_upd]
  have hpos : ∀ p ∈ customer_stats_map db, 0 ≤ p.2.total_spent := by
    refine group_fold_invariant _ _ _ _ db [] ?_ ?_ ?_
    · intro p hp; cases hp
    · intro k e t ht h
      have ha := hamt t ht
      simpa [customer_upd] using add_nonneg h ha
    · intro t ht
      have ha := hamt t ht
      simpa [customer_init, customer_upd] using ha
  have hfilter : ((customer_stats_map db).map Prod.snd).filter
      (fun s => decide ((0 : Rat) ≤ s.total_spent)) =
      (customer_stats_map db).map Prod.snd := by
    rw [List.filter_eq_self]
    intro s hs
    rcases List.mem_map.1 hs with ⟨p, hp, rfl⟩
    exact decide_eq_true (hpos p hp)
  have hids : ((((customer_stats_map db).map Prod.snd).map
      customer_finalize).map CustomerEntry.customer_id) =
      (customer_stats_map db).map Prod.fst := by
    rw [List.map_map, List.map_map]
    refine List.map_congr_left ?_
    intro p hp
    simpa [Function.comp, customer_finalize] using hid p hp
  have hcard : ((customer_stats_map db).map Prod.fst).toFinset =
      (db.map (fun t => dictGet t "customer_id")).toFinset := by
    ext v
    simp only [List.mem_toFinset]
    exact hmemkeys v
  have hlen : ((((customer_stats_map db).map Prod.snd).map
      customer_finalize).length : Int) ≤ limit := by
    have h1 : (((customer_stats_map db).map Prod.snd).map
        customer_finalize).length
        = ((customer_stats_map db).map Prod.fst).length := by
      simp
    have h2 : ((customer_stats_map db).map Prod.fst).length
        = ((customer_stats_map db).map Prod.fst).toFinset.card :=
      (List.toFinset_card_of_nodup hnodupkeys).symm
    rw [h1, h2, hcard]
    exact hlim
  have hperm : List.Perm
      (List.insertionSort (fun a b => b.total_spent ≤ a.total_spent)
        (((customer_stats_map db).map Prod.snd).map customer_finalize))
      (((customer_stats_map db).map Prod.snd).map customer_finalize) :=
    List.perm_insertionSort _ _
  have htop : top_customers limit 0 db =
      List.insertionSort (fun a b => b.total_spent ≤ a.total_spent)
        (((customer_stats_map db).map Prod.snd).map customer_finalize) := by
    simp only [top_customers, hfilter]
    refine pySlice_none_ge _ limit ?_
    rw [hperm.length_eq]
    exact hlen
  rw [htop]
  have hpm := hperm.map CustomerEntry.customer_id
  constructor
  · rw [hpm.nodup_iff, hids]
    exact hnodupkeys
  · intro v
    rw [hpm.mem_iff, hids, hmemkeys]

/-! Python slice lemmas. -/

theorem take_min_length {α : Type} (l : List α) (a : Nat) :
    l.take (min a l.length) = l.take a := by
  rcases le_total a l.length with h | h
  · rw [min_eq_left h]
  · rw [min_eq_right h, List.take_length, List.take_of_length_le h]

theorem drop_min_length {α : Type} (l : List α) (a : Nat) :
    l.drop (min a l.length) = l.drop a := by
  rcases le_total a l.length with h | h
  · rw [min_eq_left h]
  · rw [min_eq_right h, List.drop_length,
      (List.drop_eq_nil_iff).2 h]

theorem take_drop_swap {α : Type} (l : List α) (i j : Nat) :
    (l.take j).drop i = (l.drop i).take (j - i) := by
  rcases le_total i j with h | h
  · have hj2 : i + (j - i) = j := by omega
    calc (l.take j).drop i = (l.take (i + (j - i))).drop i := by rw [hj2]
    _ = (l.drop i).take (j - i) := (List.take_drop i (j - i) l).symm
  · have hz : j - i = 0 := by omega
    rw [hz, List.take_zero]
    refine (List.drop_eq_nil_iff).2 ?_
    calc (l.take j).length ≤ j := by
          rw [List.length_take]; exact min_le_left _ _
    _ ≤ i := h

theorem pySlice_nonneg {α : Type} (l : List α) (i j : Int)
    (hi : 0 ≤ i) (hj : 0 ≤ j) :
    pySlice l (some i) (some j) = (l.drop i.toNat).take (j.toNat - i.toNat) := by
  have h1 : ¬ i < 0 := by omega
  have h2 : ¬ j < 0 := by omega
  simp only [pySlice, pyIndex, if_neg h1, if_neg h2]
  rw [take_min_length]
  rcases le_total i.toNat l.length with hc | hc
  · rw [min_eq_left hc, take_drop_swap]
  · rw [min_eq_right hc]
    have hL : (l.take j.toNat).length ≤ l.length := by
      rw [List.length_take]
      exact min_le_right _ _
    rw [(List.drop_eq_nil_iff).2 hL,
      (List.drop_eq_nil_iff).2 hc, List.take_nil]

theorem pySlice_start_ge {α : Type} (l : List α) (i : Int) (e : Option Int)
    (h : (l.length : Int) ≤ i) : pySlice l (some i) e = [] := by
  have h1 : ¬ i < 0 := by omega
  have h2 : l.length ≤ i.toNat := by omega
  simp only [pySlice, pyIndex, if_neg h1, min_eq_right h2]
  refine (List.drop_eq_nil_iff).2 ?_
  rcases e with _ | j
  · simp
  · rw [List.length_take]
    exact min_le_right _ _

/-- C3 (amended): in get_all_transactions a non-negative offset at or
beyond the length of the Store yields an empty page whatever the limit;
but negative parameters are not zero-effect: they follow Python slice
semantics, a negative offset selecting from the end of the Store and a
negative limit (with offset 0) cutting the tail off the page. -/
theorem claim_C3 :
    (∀ (lim : Option Int) (o : Int) (db : List Record),
      (db.length : Int) ≤ o → get_all_transactions lim o db = []) ∧
    (∀ (db : List Record) (o : Int), o < 0 →
      get_all_transactions none o db = db.drop ((o + db.length).toNat)) ∧
    (∀ (db : List Record) (l : Int), l < 0 →
      get_all_transactions (some l) 0 db =
        db.take ((l + db.length).toNat)) := by
  refine ⟨?_, ?_, ?_⟩
  · intro lim o db h
    simp only [get_all_transactions]
    exact pySlice_start_ge db o _ h
  · intro db o h
    simp only [get_all_transactions, pySlice, pyIndex, if_pos h,
      List.take_length]
  · intro db l h
    have h0 : l ≠ 0 := by omega
    have h1 : (0 : Int) + l < 0 := by omega
    simp only [get_all_transactions, if_pos h0, pySlice, pyIndex, if_pos h1]
    have h2 : ¬ (0 : Int) < 0 := by omega
    rw [if_neg h2]
    simp only [Int.toNat_zero, Nat.min_eq_left (Nat.zero_le _), List.drop_zero,
      zero_add]

/-- C9: for a non-negative offset O and positive limit L, the pages
list_all(L, O) and list_all(L, O + L) concatenate to exactly the window of
the Store from O of length 2L (clamped at the end), with no overlap and no
gap. -/
theorem claim_C9 (db : List Record) (O L : Int) (hO : 0 ≤ O) (hL : 0 < L) :
    get_all_transactions (some L) O db ++
      get_all_transactions (some L) (O + L) db
      = (db.drop O.toNat).take (2 * L.toNat) := by
  have hL0 : L ≠ 0 := by omega
  have h1 : get_all_transactions (some L) O db
      = (db.drop O.toNat).take ((O + L).toNat - O.toNat) := by
    simp only [get_all_transactions, if_pos hL0]
    exact pySlice_nonneg db O (O + L) hO (by omega)
  have h2 : get_all_transactions (some L) (O + L) db
      = (db.drop (O + L).toNat).take ((O + L + L).toNat - (O + L).toNat) := by
    simp only [get_all_transactions, if_pos hL0]
    exact pySlice_nonneg db (O + L) (O + L + L) (by omega) (by omega)
  rw [h1, h2]
  have e1 : (O + L).toNat - O.toNat = L.toNat := by omega
  have e2 : (O + L + L).toNat - (O + L).toNat = L.toNat := by omega
  have e3 : (O + L).toNat = O.toNat + L.toNat := by omega
  rw [e1, e2, e3, ← List.drop_drop, two_mul, List.take_add]

/-! Filter claims. -/

theorem parse_bound_cases (iso : String → Option Nat) (s : Option String) :
    (∃ v, parse_bound_iso iso s = Except.ok v) ∨
    parse_bound_iso iso s = Except.error "Invalid date format" := by
  unfold parse_bound_iso
  split
  · exact Or.inl ⟨none, rfl⟩
  · split
    · exact Or.inl ⟨_, rfl⟩
    · exact Or.inr rfl

/-- C7: for every parse function iso - so in particular for the exact
acceptance boundary of the datetime.fromisoformat of whichever Python
version runs the service, which differs across versions - a supplied
(non-empty) start_date or end_date that iso fails to parse makes the whole
filter call fail with the Invalid-date-format error, for every store
alike: the bounds are parsed before any record is examined, so no record
is filtered and no page, total_count or total_amount is produced.  The
endpoint filter_transactions is by definition filter_transactions_iso at
the model parser, one instance of this statement. -/
theorem claim_C7 (iso : String → Option Nat) (p : FilterParams)
    (db : List Record)
    (h : (∃ s, p.start_date = some s ∧ s ≠ "" ∧ iso s = none) ∨
         (∃ s, p.end_date = some s ∧ s ≠ "" ∧ iso s = none)) :
    filter_transactions_iso iso p db = Except.error "Invalid date format" := by
  rcases h with ⟨s, hs, hne, hparse⟩ | ⟨s, hs, hne, hparse⟩
  · have hb : parse_bound_iso iso p.start_date =
        Except.error "Invalid date format" := by
      rw [hs]
      simp [parse_bound_iso, truthy_str, hne, hparse]
    simp [filter_transactions_iso, apply_filters_iso, hb]
  · have hb : parse_bound_iso iso p.end_date =
        Except.error "Invalid date format" := by
      rw [hs]
      simp [parse_bound_iso, truthy_str, hne, hparse]
    rcases parse_bound_cases iso p.start_date with ⟨v, hv⟩ | hv
    · simp [filter_transactions_iso, apply_filters_iso, hv, hb]
    · simp [filter_transactions_iso, apply_filters_iso, hv]

/-- C4 (amended): on a successful filter_transactions call, total_count and
total_amount are computed over the whole filtered set, before pagination;
the returned page is the window of the filtered set from offset of length
limit whenever a positive limit and non-negative offset are supplied (a
limit of 0 is falsy in the source and means no cap, and negative
parameters follow Python slice semantics). -/
theorem claim_C4 (p : FilterParams) (db : List Record) (fl : List Record)
    (res : FilterResult) (hfl : apply_filters p db = Except.ok fl)
    (hres : filter_transactions p db = Except.ok res) :
    res.total_count = fl.length ∧
    res.total_amount =
      (fl.map (fun t => (dictGet t "total_amount").toNum)).sum ∧
    ∀ L, p.limit = some L → 0 < L → 0 ≤ p.offset →
      res.data = (fl.drop p.offset.toNat).take L.toNat := by
  have hfl2 : apply_filters_iso fromisoformat p db = Except.ok fl := hfl
  simp only [filter_transactions, filter_transactions_iso, hfl2,
    Except.ok.injEq] at hres
  subst hres
  refine ⟨rfl, rfl, ?_⟩
  intro L hL hLpos hO
  have hL0 : L ≠ 0 := by omega
  simp only [hL, if_pos hL0]
  rw [pySlice_nonneg fl p.offset (p.offset + L) hO (by omega)]
  have e1 : (p.offset + L).toNat - p.offset.toNat = L.toNat := by omega
  rw [e1]

/-! Closed instances of the claims at concrete inputs. -/

/-- C1 at a concrete record: the enriched record of wrec and the store
after uploading it both satisfy total_amount = quantity * price. -/
theorem claim_C1_witness :
    total_amount_consistent (validate_transaction wrec "X").2.2 ∧
    ∀ r ∈ (upload_transactions [wrec] "X" []).db, total_amount_consistent r :=
  ⟨claim_C1.1 wrec "X" rfl, claim_C1.2 [wrec] "X" [] (by simp)⟩

/-- C6 at a concrete record: the quantity field of wrec survives
validation unchanged. -/
theorem claim_C6_witness :
    dictGet (validate_transaction wrec "X").2.2 "quantity" =
      dictGet wrec "quantity" :=
  claim_C6 wrec "X" "quantity" (by decide) (by decide)

/-- C6 refuted as stated: validating wrec succeeds and hands back a record
that differs from the input, because the source enriches (mutates) the very
record the caller supplied: total_amount has been written onto it. -/
theorem claim_C6_counterexample :
    validate_transaction wrec "X" =
      (true, none, wrec ++ [("total_amount", Value.num 6)]) ∧
    wrec ++ [("total_amount", Value.num 6)] ≠ wrec := by
  constructor
  · have h1 : (6 : Rat) = 2 * 3 := by norm_num
    rw [h1]
    rfl
  · decide

/-- C10 at a concrete record: the record rejected for its missing price
comes back exactly as supplied. -/
theorem claim_C10_witness :
    (validate_transaction wrec_noprice "X").2.2 = wrec_noprice :=
  claim_C10 wrec_noprice "X" rfl

/-- C8 at concrete records: first missing field, invalid quantity and
invalid price are each reported exactly as the first violated rule. -/
theorem claim_C8_witness :
    validate_transaction wrec_noprice "X" =
      (false, some ("Missing required field: " ++ "price"), wrec_noprice) ∧
    validate_transaction wrec_badqty "X" =
      (false, some "Quantity must be a positive number", wrec_badqty) ∧
    validate_transaction wrec_badprice "X" =
      (false, some "Price must be a non-negative number", wrec_badprice) :=
  ⟨(claim_C8 wrec_noprice "X").2.1 "price" (by decide),
   (claim_C8 wrec_badqty "X").2.2.1 (by decide) (by decide),
   (claim_C8 wrec_badprice "X").2.2.2 (by decide) (by decide) (by decide)⟩

/-- C3 (amended) at concrete inputs: offset 5 beyond a 3-record store gives
an empty page, offset -1 selects the last record onward, limit -1 drops the
last record. -/
theorem claim_C3_witness :
    get_all_transactions none 5 [wra, wrb, wrc] = [] ∧
    get_all_transactions none (-1) [wra, wrb, wrc] =
      [wra, wrb, wrc].drop
        ((-1 + (([wra, wrb, wrc] : List Record).length : Int)).toNat) ∧
    get_all_transactions (some (-1)) 0 [wra, wrb, wrc] =
      [wra, wrb, wrc].take
        ((-1 + (([wra, wrb, wrc] : List Record).length : Int)).toNat) :=
  ⟨claim_C3.1 none 5 [wra, wrb, wrc] (by decide),
   claim_C3.2.1 [wra, wrb, wrc] (-1) (by decide),
   claim_C3.2.2 [wra, wrb, wrc] (-1) (by decide)⟩

/-- C3 refuted as stated: with limit absent, a negative offset is not
zero-effect; on a two-record store offset -1 skips the first record instead
of returning everything. -/
theorem claim_C3_counterexample :
    get_all_transactions none (-1) [wra, wrb] = [wrb] ∧
    [wrb] ≠ [wra, wrb] := by
  constructor
  · decide
  · decide

/-- C9 at a concrete store: pages of size 2 at offsets 1 and 3 concatenate
to the window of length 4 from offset 1. -/
theorem claim_C9_witness :
    get_all_transactions (some 2) 1 [wra, wrb, wrc] ++
      get_all_transactions (some 2) (1 + 2) [wra, wrb, wrc] =
      ([wra, wrb, wrc].drop (1 : Int).toNat).take (2 * (2 : Int).toNat) :=
  claim_C9 [wra, wrb, wrc] 1 2 (by decide) (by decide)

/-- C7 at a concrete call, instantiating the parse function with the model
parser: the start_date 2026-13-01 (month 13, rejected by the model and by
datetime.fromisoformat of every Python version) fails the whole call with
the Invalid-date-format error. -/
theorem claim_C7_witness :
    filter_transactions w7p [] = Except.error "Invalid date format" :=
  claim_C7 fromisoformat w7p []
    (Or.inl ⟨"2026-13-01", rfl, by decide, by decide⟩)

/-- C4 (amended) at a concrete call: totals are computed over both filtered
records while the page with limit 1 and offset 1 is the one-record window
of the filtered set. -/
theorem claim_C4_witness :
    f4res.total_count = ([fra, frb] : List Record).length ∧
    f4res.total_amount =
      (([fra, frb] : List Record).map
        (fun t => (dictGet t "total_amount").toNum)).sum ∧
    ∀ L, f4p.limit = some L → 0 < L → 0 ≤ f4p.offset →
      f4res.data =
        (([fra, frb] : List Record).drop f4p.offset.toNat).take L.toNat :=
  claim_C4 f4p [fra, frb] [fra, frb] f4res rfl
    (by have h1 : (3 : Rat) = 1 + (2 + 0) := by norm_num
        rw [f4res, h1]
        rfl)

/-- C4 refuted as stated: with the supplied limit 0 and offset 1 the claim
asks for the empty page from offset 1 to 1, but limit 0 is falsy in the
source, so the page is everything from offset 1 on - here one record. -/
theorem claim_C4_counterexample :
    filter_transactions f0p [fra, frb] =
      Except.ok { count := 1, total_count := 2, total_amount := 3,
                  offset := 1, data := [frb] } ∧
    ([frb] : List Record) ≠ [] := by
  constructor
  · have h1 : (3 : Rat) = 1 + (2 + 0) := by norm_num
    rw [h1]
    rfl
  · decide

/-- C2 (amended) at a concrete store of two customers below the limit:
one entry each, none twice, none missing. -/
theorem claim_C2_witness :
    ((top_customers 10 0 [cexc "A" 5, cexc "B" 7]).map
      CustomerEntry.customer_id).Nodup ∧
    ∀ v, v ∈ (top_customers 10 0 [cexc "A" 5, cexc "B" 7]).map
        CustomerEntry.customer_id ↔
      v ∈ ([cexc "A" 5, cexc "B" 7] : List Record).map
        (fun t => dictGet t "customer_id") :=
  claim_C2 [cexc "A" 5, cexc "B" 7] 10 (by decide) (by decide)

theorem cexc_id (n : String) (a : Rat) :
    dictGet (cexc n a) "customer_id" = Value.str n := rfl

theorem cexc_name (n : String) (a : Rat) :
    dictGet (cexc n a) "customer_name" = Value.str "N" := rfl

theorem cexc_pname (n : String) (a : Rat) :
    dictGet (cexc n a) "product_name" = Value.str "P" := rfl

theorem cexc_qty (n : String) (a : Rat) :
    dictGet (cexc n a) "quantity" = Value.num 1 := rfl

theorem cexc_amt (n : String) (a : Rat) :
    dictGet (cexc n a) "total_amount" = Value.num a := rfl

set_option maxHeartbeats 3200000 in
/-- C2 refuted as stated: with eleven distinct customers and the default
limit 10, customer C01 (the lowest spender) is present in the store but
absent from the result of top_customers with min_spent 0, so a customer is
omitted. -/
theorem claim_C2_counterexample :
    Value.str "C01" ∈ cexdb.map (fun t => dictGet t "customer_id") ∧
    Value.str "C01" ∉ (top_customers 10 0 cexdb).map
      CustomerEntry.customer_id := by
  constructor
  · decide
  · norm_num [top_customers, customer_stats_map, group_fold, customer_init,
      customer_upd, customer_finalize, setAdd, Value.toNum,
      List.insertionSort, List.orderedInsert, pySlice, pyIndex, cexdb,
      cexc_id, cexc_name, cexc_pname, cexc_qty, cexc_amt]
    decide

end SalesAnalytics
